import Mathlib

/-!
# Verification of the SEC filing connector core

Shallow embedding of `src/sec_connector/client.py` and
`src/sec_connector/models.py`.  Python strings are modelled as `List Char`
(`Str`); Python `datetime.date` values as `PyDate` triples ordered
lexicographically; dictionaries of already-parsed JSON as association lists
whose values mirror the dynamic typing of the source data.  Each Python
string method used by the code (`strip`, `upper`, `zfill`, `lstrip('0')`,
`replace('-','')`, `isdigit`) is embedded over ASCII data, matching the
CPython behaviour on the ASCII subset the connector manipulates.
-/

namespace SecConnector

/-- Python strings, modelled as lists of characters. -/
abbrev Str := List Char

/-- The ASCII whitespace characters recognised by Python's `str.strip()`
(space, tab, newline, carriage return, vertical tab, form feed). -/
def pyWhitespace (c : Char) : Bool :=
  c.toNat == 32 || c.toNat == 9 || c.toNat == 10 ||
  c.toNat == 13 || c.toNat == 11 || c.toNat == 12

/-- `s.lstrip()`: drop leading whitespace. -/
def lstripWs (s : Str) : Str := s.dropWhile pyWhitespace

/-- `s.rstrip()`: drop trailing whitespace. -/
def rstripWs (s : Str) : Str := (s.reverse.dropWhile pyWhitespace).reverse

/-- Python `s.strip()`: drop leading and trailing whitespace. -/
def pyStrip (s : Str) : Str := rstripWs (lstripWs s)

/-- ASCII uppercasing of one character, as Python `str.upper()` acts on
ASCII letters (`'a'..'z'` have code points 97..122). -/
def upperChar (c : Char) : Char :=
  if 97 ≤ c.toNat ∧ c.toNat ≤ 122 then Char.ofNat (c.toNat - 32) else c

/-- Python `s.upper()` on ASCII strings. -/
def upper (s : Str) : Str := s.map upperChar

/-- Python `s.zfill(w)`: left-pad with `'0'` to width `w`, keeping a leading
sign character in front of the padding; strings already at least `w` long
are returned unchanged. -/
def zfill (w : Nat) (s : Str) : Str :=
  if w ≤ s.length then s
  else
    match s with
    | [] => List.replicate w '0'
    | c :: rest =>
      if c = '+' ∨ c = '-' then c :: (List.replicate (w - s.length) '0' ++ rest)
      else List.replicate (w - s.length) '0' ++ (c :: rest)

/-- Python `s.isdigit()` on ASCII strings: non-empty and all digits. -/
def pyIsDigit (s : Str) : Bool := !s.isEmpty && s.all Char.isDigit

/-- Python `s.lstrip('0')`: drop leading zero characters. -/
def lstripZeros (s : Str) : Str := s.dropWhile (fun c => c == '0')

/-- Python `s.replace('-', '')`: remove every dash. -/
def removeDashes (s : Str) : Str := s.filter (fun c => c != '-')

/-! ## Lemmas about the string operations -/

theorem lstripWs_idem (s : Str) : lstripWs (lstripWs s) = lstripWs s :=
  List.dropWhile_idempotent pyWhitespace s

theorem rstripWs_idem (s : Str) : rstripWs (rstripWs s) = rstripWs s := by
  unfold rstripWs
  rw [List.reverse_reverse, List.dropWhile_idempotent]

theorem lstripWs_head_false {c : Char} {rest : Str}
    (h : lstripWs (c :: rest) = c :: rest) : pyWhitespace c = false := by
  by_cases hc : pyWhitespace c = true
  · exfalso
    have := h
    unfold lstripWs at this
    rw [List.dropWhile_cons_of_pos hc] at this
    have hlen := congrArg List.length this
    have := (List.dropWhile_suffix (l := rest) pyWhitespace).length_le
    simp at hlen
    omega
  · simpa using hc

theorem lstripWs_of_head_false {c : Char} {rest : Str}
    (h : pyWhitespace c = false) : lstripWs (c :: rest) = c :: rest := by
  unfold lstripWs
  rw [List.dropWhile_cons_of_neg (by simp [h])]

/-- `rstripWs` keeps a prefix of its argument. -/
theorem rstripWs_append (s : Str) : ∃ t, s = rstripWs s ++ t := by
  obtain ⟨t, ht⟩ := List.dropWhile_suffix (l := s.reverse) pyWhitespace
  refine ⟨t.reverse, ?_⟩
  have := congrArg List.reverse ht
  simpa [rstripWs] using this.symm

theorem lstripWs_rstripWs {s : Str} (h : lstripWs s = s) :
    lstripWs (rstripWs s) = rstripWs s := by
  cases hr : rstripWs s with
  | nil => simp [lstripWs]
  | cons c rest =>
    obtain ⟨t, ht⟩ := rstripWs_append s
    rw [hr] at ht
    have hhead : pyWhitespace c = false := by
      have hs : lstripWs (c :: (rest ++ t)) = c :: (rest ++ t) := by
        rw [← List.cons_append, ← ht]
        exact h
      exact lstripWs_head_false hs
    exact lstripWs_of_head_false hhead

theorem pyStrip_idem (s : Str) : pyStrip (pyStrip s) = pyStrip s := by
  unfold pyStrip
  rw [lstripWs_rstripWs (lstripWs_idem s), rstripWs_idem]

/-- `pyStrip` leaves a string without leading whitespace alone on the left. -/
theorem lstripWs_pyStrip (s : Str) : lstripWs (pyStrip s) = pyStrip s := by
  unfold pyStrip
  exact lstripWs_rstripWs (lstripWs_idem s)

theorem dropWhile_eq_self_of_all {p : Char → Bool} {s : Str}
    (h : ∀ c ∈ s, p c = false) : s.dropWhile p = s := by
  cases s with
  | nil => rfl
  | cons c rest => exact List.dropWhile_cons_of_neg (by simp [h c (by simp)])

/-- Strings with no whitespace anywhere are fixed by `pyStrip`. -/
theorem pyStrip_of_no_ws {s : Str} (h : ∀ c ∈ s, pyWhitespace c = false) :
    pyStrip s = s := by
  unfold pyStrip lstripWs rstripWs
  rw [dropWhile_eq_self_of_all h,
      dropWhile_eq_self_of_all (fun c hc => h c (List.mem_reverse.mp hc)),
      List.reverse_reverse]

theorem toNat_ofNat_valid {n : Nat} (h : n < 55296) :
    (Char.ofNat n).toNat = n := by
  unfold Char.ofNat
  split
  · rfl
  · next h2 => exact absurd (Or.inl h) h2

/-- Uppercasing neither creates nor destroys whitespace. -/
theorem pyWhitespace_upperChar (c : Char) :
    pyWhitespace (upperChar c) = pyWhitespace c := by
  unfold upperChar
  split
  · next h =>
    have h1 : (Char.ofNat (c.toNat - 32)).toNat = c.toNat - 32 :=
      toNat_ofNat_valid (by omega)
    have h2 : pyWhitespace (Char.ofNat (c.toNat - 32)) = false := by
      simp only [pyWhitespace, h1, Bool.or_eq_false_iff, beq_eq_false_iff_ne,
        ne_eq]
      omega
    have h3 : pyWhitespace c = false := by
      simp only [pyWhitespace, Bool.or_eq_false_iff, beq_eq_false_iff_ne,
        ne_eq]
      omega
    rw [h2, h3]
  · rfl

theorem lstripWs_upper (s : Str) : lstripWs (upper s) = upper (lstripWs s) := by
  unfold lstripWs upper
  induction s with
  | nil => rfl
  | cons c rest ih =>
    by_cases h : pyWhitespace c = true
    · rw [List.map_cons, List.dropWhile_cons_of_pos (by simp [pyWhitespace_upperChar, h]),
        List.dropWhile_cons_of_pos h, ih]
    · rw [List.map_cons, List.dropWhile_cons_of_neg (by simp_all [pyWhitespace_upperChar]),
        List.dropWhile_cons_of_neg (by simp_all)]
      simp

theorem rstripWs_upper (s : Str) : rstripWs (upper s) = upper (rstripWs s) := by
  unfold rstripWs
  have h1 : (upper s).reverse = upper s.reverse := by
    simp [upper, List.map_reverse]
  rw [h1, show (upper s.reverse).dropWhile pyWhitespace = lstripWs (upper s.reverse) from rfl,
    lstripWs_upper]
  simp [upper, lstripWs, List.map_reverse]

/-- `pyStrip` commutes with `upper`. -/
theorem pyStrip_upper (s : Str) : pyStrip (upper s) = upper (pyStrip s) := by
  unfold pyStrip
  rw [lstripWs_upper, rstripWs_upper]

theorem upper_ne_nil {s : Str} (h : s ≠ []) : upper s ≠ [] := by
  simpa [upper] using h

/-- Uppercasing an already-stripped string yields a stripped string. -/
theorem pyStrip_upper_pyStrip (s : Str) :
    pyStrip (upper (pyStrip s)) = upper (pyStrip s) := by
  rw [pyStrip_upper, pyStrip_idem]

/-! ## Dates (`datetime.date`) -/

/-- A Python `datetime.date`: year, month, day.  Python compares dates
lexicographically on `(year, month, day)`. -/
structure PyDate where
  year : Nat
  month : Nat
  day : Nat
deriving DecidableEq, Repr

/-- The comparison `a <= b` on `datetime.date` values. -/
def PyDate.le (a b : PyDate) : Bool :=
  a.year < b.year ||
    (a.year = b.year &&
      (a.month < b.month || (a.month = b.month && a.day ≤ b.day)))

theorem PyDate.le_refl (a : PyDate) : PyDate.le a a = true := by
  simp [PyDate.le]

theorem PyDate.le_trans {a b c : PyDate} (h1 : PyDate.le a b = true)
    (h2 : PyDate.le b c = true) : PyDate.le a c = true := by
  simp only [PyDate.le, Bool.or_eq_true, Bool.and_eq_true,
    decide_eq_true_eq] at *
  omega

theorem PyDate.le_total (a b : PyDate) :
    PyDate.le a b = true ∨ PyDate.le b a = true := by
  simp only [PyDate.le, Bool.or_eq_true, Bool.and_eq_true,
    decide_eq_true_eq]
  omega

/-- Gregorian leap-year rule, as `calendar.isleap` / `datetime`. -/
def isLeapYear (y : Nat) : Bool := (y % 4 == 0 && y % 100 != 0) || y % 400 == 0

/-- Days in a month of a given year. -/
def daysInMonth (y m : Nat) : Nat :=
  if m = 2 then (if isLeapYear y then 29 else 28)
  else if m = 4 ∨ m = 6 ∨ m = 9 ∨ m = 11 then 30 else 31

/-- Numeric value of an ASCII digit. -/
def digitVal (c : Char) : Nat := c.toNat - 48

/-- `datetime.date.fromisoformat` on the canonical `YYYY-MM-DD` form:
exactly ten characters, dashes at positions 4 and 7, digits elsewhere, and
the encoded year/month/day in calendar range.  Any other string fails
(raises `ValueError` in Python, `none` here). -/
def parseIsoDate (s : Str) : Option PyDate :=
  match s with
  | [y1, y2, y3, y4, s1, m1, m2, s2, d1, d2] =>
    if s1 = '-' ∧ s2 = '-' ∧ ([y1, y2, y3, y4, m1, m2, d1, d2].all Char.isDigit) then
      let y := ((digitVal y1 * 10 + digitVal y2) * 10 + digitVal y3) * 10 + digitVal y4
      let m := digitVal m1 * 10 + digitVal m2
      let d := digitVal d1 * 10 + digitVal d2
      if 1 ≤ y ∧ 1 ≤ m ∧ m ≤ 12 ∧ 1 ≤ d ∧ d ≤ daysInMonth y m then
        some ⟨y, m, d⟩
      else none
    else none
  | _ => none

/-! ## Dynamic values from the parsed JSON backing data -/

/-- A dynamically-typed value inside a raw filing record.  The code only
distinguishes strings, `date` objects and "anything else" (skipped). -/
inductive PyValue where
  | str (s : Str)
  | date (d : PyDate)
  | other
deriving DecidableEq, Repr

/-- The raw `cik_str` value of a directory record: the spec allows it to be
numeric or string; `str()` renders either as text. -/
inductive RawCik where
  | int (n : Int)
  | str (s : Str)
deriving DecidableEq, Repr

/-- Python `str()` applied to a raw CIK value. -/
def RawCik.render : RawCik → Str
  | .int n => (toString n).toList
  | .str s => s

/-- One record of the ticker directory (`companies_data[ticker]`), a dict
read through `.get('cik_str', '')` and `.get('title', '')`. -/
structure CompanyInfo where
  cik_str : Option RawCik := none
  title : Option Str := none
deriving DecidableEq, Repr

/-- One raw filing record (a dict in `filings_data[cik]`), read through
`.get(key, '')`.  The `cik` key may be present in the data but is never
read by `list_filings`. -/
structure RawFiling where
  cik : Option PyValue := none
  filing_date : Option PyValue := none
  company_name : Option PyValue := none
  form_type : Option PyValue := none
  accession_number : Option PyValue := none
deriving DecidableEq, Repr

/-! ## Validated models (`models.py`) -/

/-- `Company` (pydantic model).  Validators: ticker strip+upper, non-empty;
cik strip, non-empty; `name` has **no** validator. -/
structure Company where
  ticker : Str
  cik : Str
  name : Str
deriving DecidableEq, Repr

/-- `Company(...)` construction including its field validators; `none`
models a pydantic `ValidationError` (a `ValueError`). -/
def mkCompany (ticker cik name : Str) : Option Company :=
  if pyStrip ticker = [] then none
  else if pyStrip cik = [] then none
  else some { ticker := upper (pyStrip ticker), cik := pyStrip cik, name := name }

/-- `Filing` (pydantic model).  Validators: `form_type` and
`accession_number` non-empty after strip (stored stripped); `cik`,
`company_name` and `filing_date` are stored as given. -/
structure Filing where
  cik : Str
  company_name : Str
  form_type : Str
  filing_date : PyDate
  accession_number : Str
deriving DecidableEq, Repr

/-- `Filing(...)` construction: the three text fields must be strings
(pydantic type check on the dynamic values), `form_type` and
`accession_number` non-empty after strip. -/
def mkFiling (cik : Str) (companyName formType accessionNumber : PyValue)
    (filingDate : PyDate) : Option Filing :=
  match companyName, formType, accessionNumber with
  | .str cn, .str ft, .str an =>
    if pyStrip ft = [] ∨ pyStrip an = [] then none
    else some { cik := cik, company_name := cn, form_type := pyStrip ft,
                filing_date := filingDate, accession_number := pyStrip an }
  | _, _, _ => none

/-- `FilingFilter`.  Its pydantic validators require `limit > 0` and the
two dates not in the future; those constraints restrict construction but
every theorem below holds for all field values, so they are not baked into
the structure. -/
structure FilingFilter where
  form_types : Option (List Str) := none
  date_from : Option PyDate := none
  date_to : Option PyDate := none
  limit : Nat := 10
deriving DecidableEq, Repr

/-! ## Errors raised by the client

The source raises `ValueError` with distinct messages; each raise site is
one constructor, carrying the data interpolated into its message. -/

/-- Errors of `lookup_company`. -/
inductive LookupError where
  /-- "Ticker cannot be empty" -/
  | emptyTicker
  /-- "Company with ticker '{ticker}' not found" -/
  | notFound (ticker : Str)
  /-- "No CIK found for ticker '{ticker}'" -/
  | missingCik (ticker : Str)
  /-- "No company name found for ticker '{ticker}'" -/
  | missingName (ticker : Str)
  /-- an uncaught pydantic `ValidationError` from `Company(...)` -/
  | validationError
deriving DecidableEq, Repr

/-- Errors of `list_filings`. -/
inductive ListFilingsError where
  /-- "CIK cannot be empty" -/
  | emptyCik
deriving DecidableEq, Repr

/-- Errors of `download_filing`. -/
inductive DownloadError where
  /-- "Accession number cannot be empty" -/
  | emptyAccession
  /-- "CIK cannot be empty" -/
  | emptyCik
  /-- "Failed to download filing: HTTP {status_code}" -/
  | httpStatus (code : Nat)
  /-- "Failed to download filing: {str(e)}" for an `httpx.RequestError` -/
  | requestError (msg : Str)
deriving DecidableEq, Repr

/-- Outcome of one `httpx` GET: a response with a status code and body, or
a transport-level failure (DNS, connection refused, timeout, ...). -/
inductive HttpOutcome where
  | response (status : Nat) (body : Str)
  | transportError (msg : Str)
deriving DecidableEq, Repr

/-! ## The client (`client.py`) -/

/-- `SECClient` state: the two backing maps plus configuration. -/
structure SECClient where
  companies : List (Str × CompanyInfo)
  filings : List (Str × List RawFiling)
  user_agent : Str
  base_url : Str
deriving DecidableEq, Repr

/-- The fixed `https://www.sec.gov/Archives/edgar/data` base URL. -/
def secBaseUrl : Str := "https://www.sec.gov/Archives/edgar/data".toList

/-- `SECClient.__init__`. -/
def SECClient.init (companies : List (Str × CompanyInfo)) (ua : Str) : SECClient :=
  { companies := companies, filings := [], user_agent := ua, base_url := secBaseUrl }

/-- `SECClient.add_filings_data`. -/
def SECClient.addFilingsData (c : SECClient)
    (fd : List (Str × List RawFiling)) : SECClient :=
  { c with filings := fd }

/-- `SECClient.lookup_company`. -/
def lookup_company (client : SECClient) (ticker : Str) :
    Except LookupError Company :=
  if pyStrip ticker = [] then .error .emptyTicker
  else
    let t := upper (pyStrip ticker)
    match client.companies.lookup t with
    | none => .error (.notFound t)
    | some info =>
      let cikRaw := (info.cik_str.map RawCik.render).getD []
      if cikRaw = [] then .error (.missingCik t)
      else
        let cik := zfill 10 cikRaw
        let name := info.title.getD []
        if name = [] then .error (.missingName t)
        else
          match mkCompany t cik name with
          | some company => .ok company
          | none => .error .validationError

/-- Conversion of one raw record to a `Filing` inside `list_filings`'s
loop: parse the date (string via ISO parse, `date` object as-is, any other
type skipped), then construct the `Filing`; `none` is the `continue`
branch of the `try`/`except`. -/
def convertFiling (cik : Str) (r : RawFiling) : Option Filing :=
  match r.filing_date.getD (.str []) with
  | .str s =>
    match parseIsoDate s with
    | some d => mkFiling cik (r.company_name.getD (.str []))
        (r.form_type.getD (.str [])) (r.accession_number.getD (.str [])) d
    | none => none
  | .date d => mkFiling cik (r.company_name.getD (.str []))
      (r.form_type.getD (.str [])) (r.accession_number.getD (.str [])) d
  | .other => none

/-- The CIK normalization at the top of `list_filings`: strip, then
zero-pad to 10 characters when the result is all digits. -/
def normalizeCik (cik : Str) : Str :=
  let c := pyStrip cik
  if pyIsDigit c then zfill 10 c else c

/-- Sort relation used by `filings.sort(key=..., reverse=True)`: `a`
may precede `b` iff `a.filing_date >= b.filing_date`. -/
def filingDateDesc (a b : Filing) : Prop :=
  PyDate.le b.filing_date a.filing_date = true

instance : DecidableRel filingDateDesc := fun a b => by
  unfold filingDateDesc; infer_instance

instance : IsTotal Filing filingDateDesc :=
  ⟨fun a b => (PyDate.le_total b.filing_date a.filing_date).elim Or.inl Or.inr⟩

instance : IsTrans Filing filingDateDesc :=
  ⟨fun _ _ _ h1 h2 => PyDate.le_trans h2 h1⟩

/-- Source lines 132-135: `if filters.form_types:` (a `None` **or empty**
list is falsy, so neither filters) then keep the filings whose uppercased
form type is a member of the uppercased criteria list. -/
def applyFormTypeFilter (filters : FilingFilter) (l : List Filing) : List Filing :=
  match filters.form_types with
  | some (ft :: fts) =>
    let formTypesUpper := (ft :: fts).map upper
    l.filter (fun f => formTypesUpper.contains (upper f.form_type))
  | _ => l

/-- Source lines 138-139: keep filings with `filing_date >= date_from`. -/
def applyDateFromFilter (filters : FilingFilter) (l : List Filing) : List Filing :=
  match filters.date_from with
  | some d => l.filter (fun f => PyDate.le d f.filing_date)
  | none => l

/-- Source lines 141-142: keep filings with `filing_date <= date_to`. -/
def applyDateToFilter (filters : FilingFilter) (l : List Filing) : List Filing :=
  match filters.date_to with
  | some d => l.filter (fun f => PyDate.le f.filing_date d)
  | none => l

/-- The body of `list_filings` for one company's raw record list (source
lines 105-148): convert each record (silently skipping failures), apply
the three optional filters in order, stable-sort by date descending, and
truncate to the limit.  Python's `list.sort` is stable, and a stable
sort's output is determined by the sort relation, so `List.insertionSort`
(also stable, same relation) produces the identical list. -/
def filingsPipeline (c : Str) (raw_filings : List RawFiling)
    (filters : FilingFilter) : List Filing :=
  ((applyDateToFilter filters
      (applyDateFromFilter filters
        (applyFormTypeFilter filters
          (raw_filings.filterMap (convertFiling c))))).insertionSort
      filingDateDesc).take filters.limit

/-- `SECClient.list_filings`. -/
def list_filings (client : SECClient) (cik : Str) (filters : FilingFilter) :
    Except ListFilingsError (List Filing) :=
  if pyStrip cik = [] then .error .emptyCik
  else
    let c := normalizeCik cik
    match client.filings.lookup c with
    | none => .ok []
    | some raw_filings => .ok (filingsPipeline c raw_filings filters)

/-- URL construction of `download_filing` (source lines 171-180): strip
both inputs, drop the leading zeros of the CIK, drop the dashes of the
accession number, and compose
`{base_url}/{cik}/{accession_no_dashes}/{accession_number}.txt`. -/
def downloadUrl (client : SECClient) (accession_number cik : Str) : Str :=
  let accession := pyStrip accession_number
  let cikClean := lstripZeros (pyStrip cik)
  let accessionNoDashes := removeDashes accession
  client.base_url ++ ('/' :: cikClean) ++ ('/' :: accessionNoDashes)
    ++ ('/' :: accession) ++ ".txt".toList

/-- `SECClient.download_filing`, with the HTTP layer abstracted as an
oracle from URL to outcome.  The first component of the result is the
trace of URLs requested (the source performs a single `client.get`);
`raise_for_status` raises exactly on a non-2xx status code. -/
def download_filing (client : SECClient) (http : Str → HttpOutcome)
    (accession_number : Str) (cik : Str) :
    List Str × Except DownloadError Str :=
  if pyStrip accession_number = [] then ([], .error .emptyAccession)
  else if pyStrip cik = [] then ([], .error .emptyCik)
  else
    let url := downloadUrl client accession_number cik
    match http url with
    | .response status body =>
      if 200 ≤ status ∧ status ≤ 299 then ([url], .ok body)
      else ([url], .error (.httpStatus status))
    | .transportError msg => ([url], .error (.requestError msg))

/-! ## Helper lemmas about `list_filings` -/

/-- A successful `list_filings` result is either the empty list (no catalog
entry) or the pipeline applied to the catalog entry of the normalized CIK. -/
theorem list_filings_ok_elim {client : SECClient} {cik : Str}
    {filters : FilingFilter} {res : List Filing}
    (h : list_filings client cik filters = .ok res) :
    res = [] ∨ ∃ raws, client.filings.lookup (normalizeCik cik) = some raws ∧
      res = filingsPipeline (normalizeCik cik) raws filters := by
  unfold list_filings at h
  split at h
  · cases h
  · simp only [] at h
    split at h
    · exact Or.inl (Except.ok.inj h).symm
    · next raws hlk => exact Or.inr ⟨raws, hlk, (Except.ok.inj h).symm⟩

theorem mem_applyFormTypeFilter {filters : FilingFilter} {l : List Filing}
    {f : Filing} (h : f ∈ applyFormTypeFilter filters l) :
    f ∈ l ∧ ∀ ft fts, filters.form_types = some (ft :: fts) →
      ∃ x ∈ ft :: fts, upper f.form_type = upper x := by
  unfold applyFormTypeFilter at h
  split at h
  · next ft fts heq =>
    rw [List.mem_filter] at h
    refine ⟨h.1, fun ft' fts' heq' => ?_⟩
    have hsame := (heq.symm.trans heq')
    rw [Option.some.injEq] at hsame
    obtain ⟨rfl, rfl⟩ := List.cons.inj hsame
    have hmem := List.elem_iff.mp h.2
    obtain ⟨x, hx, hxx⟩ := List.mem_map.mp hmem
    exact ⟨x, hx, hxx.symm⟩
  · next hno =>
    exact ⟨h, fun ft fts heq => absurd heq (hno ft fts)⟩

theorem mem_applyDateFromFilter {filters : FilingFilter} {l : List Filing}
    {f : Filing} (h : f ∈ applyDateFromFilter filters l) :
    f ∈ l ∧ ∀ d, filters.date_from = some d →
      PyDate.le d f.filing_date = true := by
  unfold applyDateFromFilter at h
  split at h
  · next d heq =>
    rw [List.mem_filter] at h
    exact ⟨h.1, fun d' heq' => by
      rw [heq, Option.some.injEq] at heq'
      exact heq' ▸ h.2⟩
  · next heq => exact ⟨h, fun d' heq' => by rw [heq] at heq'; cases heq'⟩

theorem mem_applyDateToFilter {filters : FilingFilter} {l : List Filing}
    {f : Filing} (h : f ∈ applyDateToFilter filters l) :
    f ∈ l ∧ ∀ d, filters.date_to = some d →
      PyDate.le f.filing_date d = true := by
  unfold applyDateToFilter at h
  split at h
  · next d heq =>
    rw [List.mem_filter] at h
    exact ⟨h.1, fun d' heq' => by
      rw [heq, Option.some.injEq] at heq'
      exact heq' ▸ h.2⟩
  · next heq => exact ⟨h, fun d' heq' => by rw [heq] at heq'; cases heq'⟩

/-- Every member of the pipeline output came from a successfully converted
record and passed each enabled filter. -/
theorem mem_filingsPipeline {c : Str} {raws : List RawFiling}
    {filters : FilingFilter} {f : Filing}
    (hf : f ∈ filingsPipeline c raws filters) :
    f ∈ raws.filterMap (convertFiling c) ∧
    (∀ ft fts, filters.form_types = some (ft :: fts) →
      ∃ x ∈ ft :: fts, upper f.form_type = upper x) ∧
    (∀ d, filters.date_from = some d → PyDate.le d f.filing_date = true) ∧
    (∀ d, filters.date_to = some d → PyDate.le f.filing_date d = true) := by
  unfold filingsPipeline at hf
  have h3 := (List.mem_insertionSort filingDateDesc).mp
    ((List.take_sublist _ _).subset hf)
  have h2 := mem_applyDateToFilter h3
  have h1 := mem_applyDateFromFilter h2.1
  have h0 := mem_applyFormTypeFilter h1.1
  exact ⟨h0.1, h0.2, h1.2, h2.2⟩

/-! ## Claim C1 -/

/-- C1: every `Filing` in a `list_filings` result satisfies the enabled
filter criteria — its form type matches some requested form type
case-insensitively when a non-empty form-type list is given, its date is
at least `date_from` and at most `date_to` when those bounds are given —
and the result's length never exceeds `filters.limit`. -/
theorem list_filings_filters_sound (client : SECClient) (cik : Str)
    (filters : FilingFilter) (res : List Filing)
    (h : list_filings client cik filters = .ok res) :
    res.length ≤ filters.limit ∧
    ∀ f ∈ res,
      (∀ ft fts, filters.form_types = some (ft :: fts) →
        ∃ x ∈ ft :: fts, upper f.form_type = upper x) ∧
      (∀ d, filters.date_from = some d → PyDate.le d f.filing_date = true) ∧
      (∀ d, filters.date_to = some d → PyDate.le f.filing_date d = true) := by
  rcases list_filings_ok_elim h with rfl | ⟨raws, _, rfl⟩
  · exact ⟨Nat.zero_le _, by simp⟩
  · refine ⟨List.length_take_le _ _, fun f hf => ?_⟩
    have := mem_filingsPipeline hf
    exact ⟨this.2.1, this.2.2.1, this.2.2.2⟩

def wDate (y m d : Nat) : PyDate := ⟨y, m, d⟩

/-- A well-formed raw filing record used by witnesses. -/
def wRaw1 : RawFiling :=
  { cik := some (.str "0000320193".toList),
    filing_date := some (.str "2024-11-01".toList),
    company_name := some (.str "Apple Inc.".toList),
    form_type := some (.str "10-K".toList),
    accession_number := some (.str "0000320193-24-000123".toList) }

/-- A second, older well-formed raw filing record. -/
def wRaw2 : RawFiling :=
  { cik := some (.str "0000320193".toList),
    filing_date := some (.str "2024-05-03".toList),
    company_name := some (.str "Apple Inc.".toList),
    form_type := some (.str "10-Q".toList),
    accession_number := some (.str "0000320193-24-000081".toList) }

/-- Witness client: AAPL in the directory, two filings in the catalog. -/
def wClient : SECClient :=
  { companies := [("AAPL".toList,
      { cik_str := some (.int 320193), title := some "Apple Inc.".toList })],
    filings := [("0000320193".toList, [wRaw2, wRaw1])],
    user_agent := "SEC Connector/0.1.0".toList,
    base_url := secBaseUrl }

def wFilters : FilingFilter :=
  { form_types := some ["10-k".toList, "10-Q".toList],
    date_from := some ⟨2024, 1, 1⟩,
    date_to := some ⟨2024, 12, 31⟩,
    limit := 10 }

def wFiling1 : Filing :=
  { cik := "0000320193".toList, company_name := "Apple Inc.".toList,
    form_type := "10-K".toList, filing_date := ⟨2024, 11, 1⟩,
    accession_number := "0000320193-24-000123".toList }

def wFiling2 : Filing :=
  { cik := "0000320193".toList, company_name := "Apple Inc.".toList,
    form_type := "10-Q".toList, filing_date := ⟨2024, 5, 3⟩,
    accession_number := "0000320193-24-000081".toList }

theorem list_filings_filters_sound_witness :
    ([wFiling1, wFiling2] : List Filing).length ≤ wFilters.limit ∧
    ∀ f ∈ [wFiling1, wFiling2],
      (∀ ft fts, wFilters.form_types = some (ft :: fts) →
        ∃ x ∈ ft :: fts, upper f.form_type = upper x) ∧
      (∀ d, wFilters.date_from = some d → PyDate.le d f.filing_date = true) ∧
      (∀ d, wFilters.date_to = some d → PyDate.le f.filing_date d = true) :=
  list_filings_filters_sound wClient "320193".toList wFilters
    [wFiling1, wFiling2] (by rfl)

/-! ## Claim C2 -/

/-- C2: a `list_filings` result is non-increasing by filing date — each
adjacent pair satisfies `result[i].filing_date >= result[i+1].filing_date`
(newest first). -/
theorem list_filings_sorted_desc (client : SECClient) (cik : Str)
    (filters : FilingFilter) (res : List Filing)
    (h : list_filings client cik filters = .ok res)
    (i : Nat) (hi : i + 1 < res.length) :
    PyDate.le (res.get ⟨i + 1, hi⟩).filing_date
      (res.get ⟨i, by omega⟩).filing_date = true := by
  have hs : res.Pairwise filingDateDesc := by
    rcases list_filings_ok_elim h with rfl | ⟨raws, _, rfl⟩
    · exact List.Pairwise.nil
    · exact List.Pairwise.sublist (List.take_sublist _ _)
        (List.sorted_insertionSort filingDateDesc _)
  exact List.pairwise_iff_get.mp hs ⟨i, by omega⟩ ⟨i + 1, hi⟩ (by
    simp [Fin.lt_def])

theorem list_filings_sorted_desc_witness :
    PyDate.le (([wFiling1, wFiling2] : List Filing).get ⟨1, by decide⟩).filing_date
      (([wFiling1, wFiling2] : List Filing).get ⟨0, by decide⟩).filing_date = true :=
  list_filings_sorted_desc wClient "320193".toList wFilters
    [wFiling1, wFiling2] (by rfl) 0 (by decide)

/-! ## Claim C3 -/

theorem filterMap_filter_isSome {α β : Type} (f : α → Option β) (l : List α) :
    (l.filter (fun a => (f a).isSome)).filterMap f = l.filterMap f := by
  induction l with
  | nil => rfl
  | cons a l ih =>
    cases hf : f a <;>
      simp [List.filter_cons, List.filterMap_cons, hf, ih]

theorem filingsPipeline_filter_isSome (c : Str) (raws : List RawFiling)
    (filters : FilingFilter) :
    filingsPipeline c (raws.filter (fun r => (convertFiling c r).isSome)) filters
      = filingsPipeline c raws filters := by
  unfold filingsPipeline
  rw [filterMap_filter_isSome]

/-- C3: records that fail conversion (bad date or failed validation) are
silently dropped — `list_filings` still succeeds, and its result is
exactly the result computed from only the records that convert
successfully. -/
theorem list_filings_silently_skips (client : SECClient) (cik : Str)
    (filters : FilingFilter) (raws : List RawFiling)
    (hc : pyStrip cik ≠ [])
    (hlk : client.filings.lookup (normalizeCik cik) = some raws) :
    list_filings client cik filters =
      .ok (filingsPipeline (normalizeCik cik)
        (raws.filter (fun r => (convertFiling (normalizeCik cik) r).isSome))
        filters) := by
  unfold list_filings
  rw [if_neg hc]
  simp only []
  rw [hlk, filingsPipeline_filter_isSome]

/-- A malformed raw record: its `filing_date` is neither a string nor a
`date` object, so conversion fails. -/
def wBadRaw : RawFiling :=
  { cik := none, filing_date := some .other,
    company_name := some (.str "Broken".toList),
    form_type := some (.str "10-K".toList),
    accession_number := some (.str "0000000000-00-000000".toList) }

/-- Witness client whose catalog holds one good and one malformed record. -/
def wClient3 : SECClient :=
  { companies := [],
    filings := [("0000320193".toList, [wRaw1, wBadRaw])],
    user_agent := "SEC Connector/0.1.0".toList,
    base_url := secBaseUrl }

theorem list_filings_silently_skips_witness :
    list_filings wClient3 "0000320193".toList wFilters =
      .ok (filingsPipeline (normalizeCik "0000320193".toList)
        ([wRaw1, wBadRaw].filter
          (fun r => (convertFiling (normalizeCik "0000320193".toList) r).isSome))
        wFilters) :=
  list_filings_silently_skips wClient3 "0000320193".toList wFilters
    [wRaw1, wBadRaw] (by decide) (by rfl)

/-! ## Claim C9 -/

theorem isDigit_toNat {c : Char} (h : c.isDigit = true) :
    48 ≤ c.toNat ∧ c.toNat ≤ 57 := by
  simp only [Char.isDigit, decide_eq_true_eq, Bool.and_eq_true] at h
  exact ⟨h.1, h.2⟩

theorem pyWhitespace_of_digit {c : Char} (h : c.isDigit = true) :
    pyWhitespace c = false := by
  have := isDigit_toNat h
  simp only [pyWhitespace, Bool.or_eq_false_iff, beq_eq_false_iff_ne, ne_eq]
  omega

theorem pyStrip_of_digits {s : Str} (h : pyIsDigit s = true) :
    pyStrip s = s := by
  refine pyStrip_of_no_ws (fun c hc => ?_)
  have hall := (Bool.and_eq_true _ _ |>.mp h).2
  exact pyWhitespace_of_digit (List.all_eq_true.mp hall c hc)

theorem length_zfill (w : Nat) (s : Str) :
    (zfill w s).length = max w s.length := by
  unfold zfill
  split
  · omega
  · next hlt =>
    match s with
    | [] => simp
    | c :: rest =>
      simp only [List.length_cons] at hlt ⊢
      split <;> simp <;> omega

theorem zfill_of_le {w : Nat} {s : Str} (h : w ≤ s.length) : zfill w s = s := by
  unfold zfill
  rw [if_pos h]

theorem zfill_zfill (s : Str) : zfill 10 (zfill 10 s) = zfill 10 s :=
  zfill_of_le (by rw [length_zfill]; omega)

theorem pyIsDigit_zfill {w : Nat} {s : Str} (h : pyIsDigit s = true) :
    pyIsDigit (zfill w s) = true := by
  cases s with
  | nil => simp [pyIsDigit] at h
  | cons c rest =>
    have hd : c.isDigit = true := by
      have := (Bool.and_eq_true _ _ |>.mp h).2
      exact List.all_eq_true.mp this c (by simp)
    simp only [zfill]
    split
    · exact h
    · rw [if_neg]
      · have hall : (c :: rest).all Char.isDigit = true :=
          (Bool.and_eq_true _ _ |>.mp h).2
        simp only [pyIsDigit, Bool.and_eq_true, Bool.not_eq_true']
        refine ⟨?_, ?_⟩
        · cases hrep : List.replicate (w - (c :: rest).length) '0' <;> simp
        · rw [List.all_append]
          refine (Bool.and_eq_true _ _).mpr ⟨?_, hall⟩
          simp only [List.all_eq_true]
          intro x hx
          rw [List.eq_of_mem_replicate hx]
          decide
      · have := isDigit_toNat hd
        rintro (rfl | rfl) <;> simp_all

/-- C9: when the trimmed identifier is all digits, passing the raw or the
zero-padded identifier to `list_filings` yields identical results. -/
theorem list_filings_zero_pad_invariant (client : SECClient) (cik : Str)
    (filters : FilingFilter)
    (h1 : pyStrip cik ≠ []) (h2 : pyIsDigit (pyStrip cik) = true) :
    list_filings client cik filters =
      list_filings client (zfill 10 (pyStrip cik)) filters := by
  have hz : pyStrip (zfill 10 (pyStrip cik)) = zfill 10 (pyStrip cik) :=
    pyStrip_of_digits (pyIsDigit_zfill h2)
  have hz2 : zfill 10 (pyStrip cik) ≠ [] := by
    intro he
    have := length_zfill 10 (pyStrip cik)
    rw [he] at this
    simp at this
    omega
  have e1 : normalizeCik cik = zfill 10 (pyStrip cik) := by
    unfold normalizeCik
    rw [if_pos h2]
  have e2 : normalizeCik (zfill 10 (pyStrip cik)) = zfill 10 (pyStrip cik) := by
    unfold normalizeCik
    rw [hz, if_pos (pyIsDigit_zfill h2), zfill_zfill]
  unfold list_filings
  rw [if_neg h1, if_neg (by rw [hz]; exact hz2)]
  simp only []
  rw [e1, e2]

theorem list_filings_zero_pad_invariant_witness :
    list_filings wClient "320193".toList wFilters =
      list_filings wClient (zfill 10 (pyStrip "320193".toList)) wFilters :=
  list_filings_zero_pad_invariant wClient "320193".toList wFilters
    (by decide) (by decide)

/-! ## Claim C10 -/

theorem mkFiling_cik {c : Str} {a b e : PyValue} {d : PyDate} {f : Filing}
    (h : mkFiling c a b e d = some f) : f.cik = c := by
  unfold mkFiling at h
  split at h
  · split at h
    · cases h
    · cases h
      rfl
  · cases h

theorem convertFiling_cik {c : Str} {r : RawFiling} {f : Filing}
    (h : convertFiling c r = some f) : f.cik = c := by
  unfold convertFiling at h
  split at h
  · split at h
    · exact mkFiling_cik h
    · cases h
  · exact mkFiling_cik h
  · cases h

theorem convertFiling_set_cik (c : Str) (v : Option PyValue) (r : RawFiling) :
    convertFiling c { r with cik := v } = convertFiling c r := by
  cases r
  rfl

theorem filterMap_convert_set_cik (c : Str) (g : RawFiling → Option PyValue)
    (raws : List RawFiling) :
    (raws.map (fun r => { r with cik := g r })).filterMap (convertFiling c)
      = raws.filterMap (convertFiling c) := by
  induction raws with
  | nil => rfl
  | cons r raws ih =>
    rw [List.map_cons, List.filterMap_cons, List.filterMap_cons,
      convertFiling_set_cik, ih]

theorem lookup_map_snd {β γ : Type} (g : β → γ) (k : Str)
    (l : List (Str × β)) :
    (l.map (fun kv => (kv.1, g kv.2))).lookup k = (l.lookup k).map g := by
  induction l with
  | nil => rfl
  | cons kv l ih =>
    obtain ⟨a, b⟩ := kv
    cases hk : k == a <;> simp [List.lookup, hk, ih]

/-- C10: every returned `Filing` carries the normalized identifier
argument as its `cik`, and the identifier embedded in the raw backing
records is never read — rewriting it arbitrarily leaves the result
unchanged. -/
theorem list_filings_cik_from_argument (client : SECClient) (cik : Str)
    (filters : FilingFilter) (res : List Filing)
    (g : RawFiling → Option PyValue)
    (h : list_filings client cik filters = .ok res) :
    (∀ f ∈ res, f.cik = normalizeCik cik) ∧
    list_filings
      { client with filings := (client.filings.map
          (fun kv => (kv.1, kv.2.map (fun r => { r with cik := g r })))) }
      cik filters = list_filings client cik filters := by
  constructor
  · intro f hf
    rcases list_filings_ok_elim h with rfl | ⟨raws, _, rfl⟩
    · cases hf
    · obtain ⟨r, _, hcv⟩ := List.mem_filterMap.mp (mem_filingsPipeline hf).1
      exact convertFiling_cik hcv
  · unfold list_filings
    by_cases hc : pyStrip cik = []
    · rw [if_pos hc, if_pos hc]
    · rw [if_neg hc, if_neg hc]
      simp only []
      rw [lookup_map_snd]
      cases client.filings.lookup (normalizeCik cik) with
      | none => rfl
      | some raws =>
        simp only [Option.map_some']
        unfold filingsPipeline
        rw [filterMap_convert_set_cik]

theorem list_filings_cik_from_argument_witness :
    (∀ f ∈ [wFiling1, wFiling2], f.cik = normalizeCik "320193".toList) ∧
    list_filings
      { wClient with filings := (wClient.filings.map
          (fun kv => (kv.1, kv.2.map (fun r => { r with cik := some .other })))) }
      "320193".toList wFilters
      = list_filings wClient "320193".toList wFilters :=
  list_filings_cik_from_argument wClient "320193".toList wFilters
    [wFiling1, wFiling2] (fun _ => some .other) (by rfl)

/-! ## Claim C4 -/

/-- C4: for non-empty (after trim) inputs, `download_filing` requests
exactly the URL
`{base_url}/{cik zeros stripped}/{accession dashes removed}/{accession}.txt`,
and an all-zero identifier yields an empty identifier path segment. -/
theorem download_filing_requests_exact_url (client : SECClient)
    (http : Str → HttpOutcome) (a c : Str)
    (ha : pyStrip a ≠ []) (hc : pyStrip c ≠ []) :
    (download_filing client http a c).1 = [downloadUrl client a c] ∧
    downloadUrl client a c =
      client.base_url ++ ('/' :: lstripZeros (pyStrip c))
        ++ ('/' :: removeDashes (pyStrip a)) ++ ('/' :: pyStrip a)
        ++ ".txt".toList ∧
    ∀ n, 0 < n → lstripZeros (List.replicate n '0') = [] := by
  refine ⟨?_, rfl, ?_⟩
  · unfold download_filing
    rw [if_neg ha, if_neg hc]
    simp only []
    cases http (downloadUrl client a c) with
    | response st body =>
      simp only []
      split <;> rfl
    | transportError m => rfl
  · intro n hn
    clear hn
    induction n with
    | zero => rfl
    | succ k ih =>
      rw [List.replicate_succ]
      unfold lstripZeros at *
      rw [List.dropWhile_cons_of_pos (by decide)]
      exact ih

def wHttpOk : Str → HttpOutcome := fun _ => .response 200 "FILING CONTENT".toList

theorem download_filing_requests_exact_url_witness :
    (download_filing wClient wHttpOk "0000320193-24-000123".toList
        "0000320193".toList).1 =
      [("https://www.sec.gov/Archives/edgar/data/320193/" ++
        "000032019324000123/0000320193-24-000123.txt").toList] ∧
    lstripZeros (List.replicate 3 '0') = [] :=
  ⟨by
    rw [(download_filing_requests_exact_url wClient wHttpOk
      "0000320193-24-000123".toList "0000320193".toList
      (by decide) (by decide)).1]
    rfl,
   (download_filing_requests_exact_url wClient wHttpOk
      "0000320193-24-000123".toList "0000320193".toList
      (by decide) (by decide)).2.2 3 (by decide)⟩

/-! ## Claim C5 -/

/-- C5: with valid inputs, `download_filing` makes exactly one request; a
2xx response returns the body unchanged, a non-2xx response fails with
`DownloadFailed` carrying the numeric status code, and a transport-level
failure fails with `DownloadFailed` carrying the underlying error
description. -/
theorem download_filing_outcome (client : SECClient)
    (http : Str → HttpOutcome) (a c : Str)
    (ha : pyStrip a ≠ []) (hc : pyStrip c ≠ []) :
    (download_filing client http a c).1 = [downloadUrl client a c] ∧
    (∀ st body, http (downloadUrl client a c) = .response st body →
      ((200 ≤ st ∧ st ≤ 299) →
        (download_filing client http a c).2 = .ok body) ∧
      (¬(200 ≤ st ∧ st ≤ 299) →
        (download_filing client http a c).2 = .error (.httpStatus st))) ∧
    (∀ m, http (downloadUrl client a c) = .transportError m →
      (download_filing client http a c).2 = .error (.requestError m)) := by
  unfold download_filing
  rw [if_neg ha, if_neg hc]
  simp only []
  cases hh : http (downloadUrl client a c) with
  | response st body =>
    refine ⟨by simp only []; split <;> rfl, ?_, ?_⟩
    · intro st' body' heq
      injection heq with h1 h2
      subst h1
      subst h2
      constructor
      · intro hcode
        simp only []
        rw [if_pos hcode]
      · intro hcode
        simp only []
        rw [if_neg hcode]
    · intro m hm
      simp at hm
  | transportError m =>
    refine ⟨rfl, ?_, ?_⟩
    · intro st' body' heq
      simp at heq
    · intro m' hm
      injection hm with h1
      subst h1
      rfl

theorem download_filing_outcome_witness :
    (download_filing wClient wHttpOk "0000320193-24-000123".toList
        "0000320193".toList).2 = .ok "FILING CONTENT".toList :=
  (((download_filing_outcome wClient wHttpOk "0000320193-24-000123".toList
      "0000320193".toList (by decide) (by decide)).2.1
    200 "FILING CONTENT".toList (by rfl)).1 (by decide))

/-! ## Claim C6 -/

theorem upperChar_idem (c : Char) : upperChar (upperChar c) = upperChar c := by
  by_cases h : 97 ≤ c.toNat ∧ c.toNat ≤ 122
  · have e : upperChar c = Char.ofNat (c.toNat - 32) := by
      unfold upperChar
      rw [if_pos h]
    rw [e]
    unfold upperChar
    rw [if_neg]
    rw [toNat_ofNat_valid (by omega)]
    omega
  · have e : upperChar c = c := by
      unfold upperChar
      rw [if_neg h]
    rw [e, e]

theorem upper_idem (s : Str) : upper (upper s) = upper s := by
  unfold upper
  rw [List.map_map]
  exact List.map_congr_left (fun c _ => upperChar_idem c)

theorem pyIsDigit_ne_nil {s : Str} (h : pyIsDigit s = true) : s ≠ [] := by
  intro he
  subst he
  simp [pyIsDigit] at h

theorem zfill_ten_ne_nil (s : Str) : zfill 10 s ≠ [] := by
  intro he
  have := length_zfill 10 s
  rw [he] at this
  simp at this
  omega

/-- C6: for a ticker present in the directory (after trim + uppercase),
with a raw CIK that renders to a digit string and a non-empty title,
`lookup_company` returns the Company with the trimmed uppercased ticker,
the rendered CIK zero-padded to 10 characters (unchanged when already at
least 10 characters long), and the record's display name unchanged. -/
theorem lookup_company_found (client : SECClient) (ticker : Str)
    (info : CompanyInfo) (rawCik : RawCik) (name : Str)
    (ht : pyStrip ticker ≠ [])
    (hlk : client.companies.lookup (upper (pyStrip ticker)) = some info)
    (hcik : info.cik_str = some rawCik)
    (hdig : pyIsDigit rawCik.render = true)
    (hname : info.title = some name) (hnm : name ≠ []) :
    lookup_company client ticker =
      .ok { ticker := upper (pyStrip ticker), cik := zfill 10 rawCik.render,
            name := name } ∧
    (10 ≤ rawCik.render.length → zfill 10 rawCik.render = rawCik.render) := by
  refine ⟨?_, fun h => zfill_of_le h⟩
  unfold lookup_company
  rw [if_neg ht]
  simp only []
  rw [hlk]
  simp only [hcik, Option.map_some', Option.getD_some]
  rw [if_neg (pyIsDigit_ne_nil hdig)]
  simp only [hname, Option.getD_some]
  rw [if_neg hnm]
  unfold mkCompany
  rw [pyStrip_upper_pyStrip, pyStrip_of_digits (pyIsDigit_zfill hdig)]
  rw [if_neg (upper_ne_nil ht), if_neg (zfill_ten_ne_nil rawCik.render)]
  simp only [upper_idem]

theorem lookup_company_found_witness :
    lookup_company wClient "  aapl ".toList =
      .ok { ticker := "AAPL".toList, cik := "0000320193".toList,
            name := "Apple Inc.".toList } ∧
    (10 ≤ (RawCik.int 320193).render.length →
      zfill 10 (RawCik.int 320193).render = (RawCik.int 320193).render) := by
  have h := lookup_company_found wClient "  aapl ".toList
    { cik_str := some (.int 320193), title := some "Apple Inc.".toList }
    (.int 320193) "Apple Inc.".toList
    (by decide) (by rfl) (by rfl) (by rfl) (by rfl) (by decide)
  exact ⟨h.1.trans (by rfl), h.2⟩

/-! ## Claim C7 -/

/-- C7: `lookup_company` fails with the not-found error exactly when the
trimmed uppercased ticker is absent from the backing map; an empty or
whitespace-only ticker instead fails with the empty-ticker error; and
`list_filings` on a valid identifier absent from the catalog returns the
empty list rather than any error. -/
theorem notFound_exactly_when_absent (client : SECClient) (t c : Str)
    (filters : FilingFilter) :
    (pyStrip t ≠ [] →
      ((∃ u, lookup_company client t = .error (.notFound u)) ↔
        client.companies.lookup (upper (pyStrip t)) = none)) ∧
    (pyStrip t = [] → lookup_company client t = .error .emptyTicker) ∧
    (pyStrip c ≠ [] → client.filings.lookup (normalizeCik c) = none →
      list_filings client c filters = .ok []) := by
  refine ⟨fun ht => ?_, fun ht => ?_, fun hc hlk => ?_⟩
  · unfold lookup_company
    rw [if_neg ht]
    simp only []
    cases hlk : client.companies.lookup (upper (pyStrip t)) with
    | none =>
      exact ⟨fun _ => rfl, fun _ => ⟨upper (pyStrip t), rfl⟩⟩
    | some info =>
      constructor
      · rintro ⟨u, hu⟩
        exfalso
        split at hu
        · next heq => simp at heq
        · next info2 heq =>
          split at hu
          · simp at hu
          · split at hu
            · simp at hu
            · split at hu <;> simp at hu
      · intro hfalse
        cases hfalse
  · unfold lookup_company
    rw [if_pos ht]
  · unfold list_filings
    rw [if_neg hc]
    simp only []
    rw [hlk]

theorem notFound_exactly_when_absent_witness :
    (∃ u, lookup_company wClient "MSFT".toList = .error (.notFound u)) ∧
    lookup_company wClient "   ".toList = .error .emptyTicker ∧
    list_filings wClient "9999999999".toList wFilters = .ok [] :=
  ⟨((notFound_exactly_when_absent wClient "MSFT".toList
      "9999999999".toList wFilters).1 (by decide)).mpr (by rfl),
   (notFound_exactly_when_absent wClient "   ".toList
      "9999999999".toList wFilters).2.1 (by rfl),
   (notFound_exactly_when_absent wClient "MSFT".toList
      "9999999999".toList wFilters).2.2 (by decide) (by rfl)⟩

/-! ## Claim C8 -/

/-- A directory whose only record has a whitespace-only display name. -/
def w8Client : SECClient :=
  { companies := [("A".toList,
      { cik_str := some (.int 1), title := some [' '] })],
    filings := [],
    user_agent := "SEC Connector/0.1.0".toList,
    base_url := secBaseUrl }

/-- C8 counterexample: the code checks only Python falsiness of the name
(`if not name`), not emptiness after trimming, and the `Company` model has
no validator on `name`; a whitespace-only title therefore produces a
`Company` whose name is empty after trimming, instead of an error. -/
theorem lookup_company_whitespace_name_accepted :
    lookup_company w8Client ['A'] =
      .ok { ticker := ['A'], cik := "0000000001".toList, name := [' '] } ∧
    pyStrip [' '] = [] := ⟨by rfl, by rfl⟩

/-- C8 amended: `lookup_company` fails with the missing-name error when
the record's display name is missing or the empty string (so long as a
CIK was found first); a whitespace-only display name is **not** rejected. -/
theorem lookup_company_missing_name (client : SECClient) (t : Str)
    (info : CompanyInfo)
    (ht : pyStrip t ≠ [])
    (hlk : client.companies.lookup (upper (pyStrip t)) = some info)
    (hcik : (info.cik_str.map RawCik.render).getD [] ≠ [])
    (hnm : info.title.getD [] = []) :
    lookup_company client t = .error (.missingName (upper (pyStrip t))) := by
  unfold lookup_company
  rw [if_neg ht]
  simp only []
  rw [hlk]
  simp only [if_neg hcik, if_pos hnm]

/-- A directory whose only record lacks a title entirely. -/
def w8bClient : SECClient :=
  { companies := [("B".toList,
      { cik_str := some (.str "12".toList), title := none })],
    filings := [],
    user_agent := "SEC Connector/0.1.0".toList,
    base_url := secBaseUrl }

theorem lookup_company_missing_name_witness :
    lookup_company w8bClient ['b'] = .error (.missingName ['B']) :=
  lookup_company_missing_name w8bClient ['b']
    { cik_str := some (.str "12".toList), title := none }
    (by decide) (by rfl) (by decide) (by rfl)

end SecConnector
